import Mathlib

/-
Verification of the ai-bpms-backend repository against its specification.

The repository is a scaffold: HTTP route stubs, configuration loading, a
migration runner, GORM data models.  The process/task execution engine that
the specification designs (definition store, rule evaluator, execution
engine, task queue) is not present in the source; where a claim concerns
that engine, the definitions below are modelled from the spec and say so in
their doc comments.  Everything else is a direct shallow embedding of the Go
source.
-/

namespace BPMS

/-! ## HTTP layer (cmd/server main.go): routes and placeholder handlers -/

namespace Http

/-- An HTTP request as seen by a gin handler.  The placeholder handlers in
the source never read any part of it. -/
structure Request where
  method : String
  path : String
  headers : List (String × String)
  body : String
deriving DecidableEq, Repr

/-- The observable result of a handler: the status code passed to `c.JSON`
and the JSON object body, modelled as an association list of string pairs
(every placeholder body is a one-key object of strings). -/
structure Response where
  status : Nat
  body : List (String × String)
deriving DecidableEq, Repr

/-- One constructor per named handler function bound by `setupRoutes` under
the `/api/v1` group in the source. -/
inductive Handler where
  | loginHandler | logoutHandler | refreshHandler | profileHandler
  | listProcesses | createProcess | getProcess | updateProcess | deleteProcess
  | listInstances | startInstance | getInstance | updateInstance | cancelInstance
  | listTasks | getTask | completeTask | assignTask
  | getFormSchema | validateForm
  | listRules | createRule | updateRule | evaluateRule
  | aiGenerateProcess | aiGenerateRules | aiOptimizeProcess
  | getDashboard | getProcessAnalytics | getInstanceAnalytics
  | listUsers | createUser | updateUser | deleteUser | updateUserRoles
deriving DecidableEq, Repr

/-- The message string each placeholder handler puts in its JSON body,
copied from the source (`c.JSON(http.StatusOK, gin.H{...})` bodies). -/
def stubMessage : Handler → String
  | .loginHandler => "Login endpoint - TODO: Implement"
  | .logoutHandler => "Logout endpoint - TODO: Implement"
  | .refreshHandler => "Refresh endpoint - TODO: Implement"
  | .profileHandler => "Profile endpoint - TODO: Implement"
  | .listProcesses => "List processes - TODO: Implement"
  | .createProcess => "Create process - TODO: Implement"
  | .getProcess => "Get process - TODO: Implement"
  | .updateProcess => "Update process - TODO: Implement"
  | .deleteProcess => "Delete process - TODO: Implement"
  | .listInstances => "List instances - TODO: Implement"
  | .startInstance => "Start instance - TODO: Implement"
  | .getInstance => "Get instance - TODO: Implement"
  | .updateInstance => "Update instance - TODO: Implement"
  | .cancelInstance => "Cancel instance - TODO: Implement"
  | .listTasks => "List tasks - TODO: Implement"
  | .getTask => "Get task - TODO: Implement"
  | .completeTask => "Complete task - TODO: Implement"
  | .assignTask => "Assign task - TODO: Implement"
  | .getFormSchema => "Get form schema - TODO: Implement"
  | .validateForm => "Validate form - TODO: Implement"
  | .listRules => "List rules - TODO: Implement"
  | .createRule => "Create rule - TODO: Implement"
  | .updateRule => "Update rule - TODO: Implement"
  | .evaluateRule => "Evaluate rule - TODO: Implement"
  | .aiGenerateProcess => "AI generate process - TODO: Implement"
  | .aiGenerateRules => "AI generate rules - TODO: Implement"
  | .aiOptimizeProcess => "AI optimize process - TODO: Implement"
  | .getDashboard => "Get dashboard - TODO: Implement"
  | .getProcessAnalytics => "Get process analytics - TODO: Implement"
  | .getInstanceAnalytics => "Get instance analytics - TODO: Implement"
  | .listUsers => "List users - TODO: Implement"
  | .createUser => "Create user - TODO: Implement"
  | .updateUser => "Update user - TODO: Implement"
  | .deleteUser => "Delete user - TODO: Implement"
  | .updateUserRoles => "Update user roles - TODO: Implement"

/-- Each placeholder handler: it ignores the request entirely and answers
`c.JSON(http.StatusOK, gin.H{"message": ...})`. -/
def handle (h : Handler) (_req : Request) : Response :=
  { status := 200, body := [("message", stubMessage h)] }

/-- A registered route: HTTP method, full path, bound handler. -/
structure Route where
  method : String
  path : String
  handler : Handler
deriving DecidableEq, Repr

/-- The `/api/v1` route table of `setupRoutes`, group prefixes expanded. -/
def apiV1Routes : List Route :=
  [ ⟨"POST", "/api/v1/auth/login", .loginHandler⟩,
    ⟨"POST", "/api/v1/auth/logout", .logoutHandler⟩,
    ⟨"POST", "/api/v1/auth/refresh", .refreshHandler⟩,
    ⟨"GET", "/api/v1/auth/profile", .profileHandler⟩,
    ⟨"GET", "/api/v1/processes", .listProcesses⟩,
    ⟨"POST", "/api/v1/processes", .createProcess⟩,
    ⟨"GET", "/api/v1/processes/:id", .getProcess⟩,
    ⟨"PUT", "/api/v1/processes/:id", .updateProcess⟩,
    ⟨"DELETE", "/api/v1/processes/:id", .deleteProcess⟩,
    ⟨"GET", "/api/v1/instances", .listInstances⟩,
    ⟨"POST", "/api/v1/instances", .startInstance⟩,
    ⟨"GET", "/api/v1/instances/:id", .getInstance⟩,
    ⟨"PUT", "/api/v1/instances/:id", .updateInstance⟩,
    ⟨"DELETE", "/api/v1/instances/:id", .cancelInstance⟩,
    ⟨"GET", "/api/v1/tasks", .listTasks⟩,
    ⟨"GET", "/api/v1/tasks/:id", .getTask⟩,
    ⟨"POST", "/api/v1/tasks/:id/complete", .completeTask⟩,
    ⟨"POST", "/api/v1/tasks/:id/assign", .assignTask⟩,
    ⟨"GET", "/api/v1/forms/schema/:id", .getFormSchema⟩,
    ⟨"POST", "/api/v1/forms/validate", .validateForm⟩,
    ⟨"GET", "/api/v1/rules", .listRules⟩,
    ⟨"POST", "/api/v1/rules", .createRule⟩,
    ⟨"PUT", "/api/v1/rules/:id", .updateRule⟩,
    ⟨"POST", "/api/v1/rules/evaluate", .evaluateRule⟩,
    ⟨"POST", "/api/v1/ai/process", .aiGenerateProcess⟩,
    ⟨"POST", "/api/v1/ai/rules", .aiGenerateRules⟩,
    ⟨"POST", "/api/v1/ai/optimize", .aiOptimizeProcess⟩,
    ⟨"GET", "/api/v1/analytics/dashboard", .getDashboard⟩,
    ⟨"GET", "/api/v1/analytics/processes", .getProcessAnalytics⟩,
    ⟨"GET", "/api/v1/analytics/instances", .getInstanceAnalytics⟩,
    ⟨"GET", "/api/v1/admin/users", .listUsers⟩,
    ⟨"POST", "/api/v1/admin/users", .createUser⟩,
    ⟨"PUT", "/api/v1/admin/users/:id", .updateUser⟩,
    ⟨"DELETE", "/api/v1/admin/users/:id", .deleteUser⟩,
    ⟨"PUT", "/api/v1/admin/users/:id/roles", .updateUserRoles⟩ ]

/-- The marker text the claim requires inside each placeholder body. -/
def todoMark : String := "TODO: Implement"

end Http

/-! ## joinStrings (shared/common/middleware): helper and its reference -/

/-- Shallow embedding of `joinStrings` from the middleware package:
`result := strs[0]`, then `result += sep + strs[i]` for the rest. -/
def joinStrings (strs : List String) (sep : String) : String :=
  match strs with
  | [] => ""
  | s :: rest => rest.foldl (fun acc x => acc ++ (sep ++ x)) s

/-- Modelled from the spec: the Go standard library `strings.Join`
reference behaviour named by the claim — empty slice gives the empty
string, otherwise the elements in order with `sep` between each adjacent
pair. -/
def stringsJoin (strs : List String) (sep : String) : String :=
  match strs with
  | [] => ""
  | [s] => s
  | s :: rest@(_ :: _) => s ++ sep ++ stringsJoin rest sep

/-! ## Migration runner (shared/database/migration/migration.go) -/

namespace MigrationRunner

/-- One migration of the fixed list (`Up`/`Down` kept abstract: executing
`Up` is recorded in the model state's effect log). -/
structure Migration where
  version : String
  description : String
deriving DecidableEq, Repr

/-- The observable database state for the migrator: the versions stored in
`migration_records`, and a log of which `Up` functions have been executed
(in execution order). -/
structure DBState where
  migrationRecords : List String
  appliedUps : List String
deriving DecidableEq, Repr

/-- The fixed migration list returned by `getMigrations`. -/
def getMigrations : List Migration :=
  [ ⟨"001_initial_schema", "Create initial database schema"⟩,
    ⟨"002_rbac_system", "Create RBAC (Role-Based Access Control) system"⟩,
    ⟨"003_process_engine", "Create process engine tables"⟩,
    ⟨"004_audit_system", "Create audit logging system"⟩,
    ⟨"005_indexes_optimization", "Add performance indexes"⟩ ]

/-- `getAppliedMigrations`: the set of recorded versions, as a membership
test over `migration_records`. -/
def getAppliedMigrations (s : DBState) (v : String) : Bool :=
  s.migrationRecords.contains v

/-- The body of `Run`'s loop for one migration: skip it when the version is
in the pre-computed applied set, otherwise execute `Up` and insert a
`MigrationRecord` for it. -/
def runStep (applied : String → Bool) (st : DBState) (m : Migration) : DBState :=
  if applied m.version then st
  else { migrationRecords := st.migrationRecords ++ [m.version],
         appliedUps := st.appliedUps ++ [m.version] }

/-- `Migrator.Run` on its success path: compute the applied set once, then
run every pending migration of the fixed list in declaration order. -/
def run (s : DBState) : DBState :=
  getMigrations.foldl (runStep (getAppliedMigrations s)) s

/-- The versions `Run` applies from state `s`: the fixed list filtered to
those not yet recorded, in declaration order. -/
def pendingVersions (s : DBState) : List String :=
  (getMigrations.filter (fun m => !getAppliedMigrations s m.version)).map
    (fun m => m.version)

end MigrationRunner

/-! ## Configuration loading (shared/common/config/config.go) -/

namespace AppConfig

/-- A viper setting value.  Durations are held as their string literals
(`"30s"`), exactly as `setDefaults` registers them. -/
inductive CVal where
  | str (s : String)
  | num (n : Int)
  | flag (b : Bool)
  | strs (l : List String)
deriving DecidableEq, Repr

/-- `ServerConfig`; duration fields keep viper's string form. -/
structure ServerConfig where
  Host : String
  Port : Int
  ReadTimeout : String
  WriteTimeout : String
  IdleTimeout : String
  TLSEnabled : Bool
  TLSCertFile : String
  TLSKeyFile : String
deriving DecidableEq, Repr

/-- `DatabaseConfig`. -/
structure DatabaseConfig where
  Host : String
  Port : Int
  User : String
  Password : String
  DBName : String
  SSLMode : String
  MaxOpenConns : Int
  MaxIdleConns : Int
  MaxLifetime : String
deriving DecidableEq, Repr

/-- `JWTConfig`. -/
structure JWTConfig where
  Secret : String
  AccessTokenDuration : String
  RefreshTokenDuration : String
  Issuer : String
  Audience : String
deriving DecidableEq, Repr

/-- `AuthConfig` (Keycloak/OIDC sub-structs carry no defaults and are
summarized by their string fields' zero values through the same getters). -/
structure AuthConfig where
  Provider : String
  JWT : JWTConfig
  BuiltInEnabled : Bool
  SessionTimeout : String
  MaxConcurrentSessions : Int
deriving DecidableEq, Repr

/-- `NATSConfig`. -/
structure NATSConfig where
  URL : String
  ClusterID : String
  ClientID : String
deriving DecidableEq, Repr

/-- `RedisConfig`. -/
structure RedisConfig where
  Host : String
  Port : Int
  Password : String
  DB : Int
  PoolSize : Int
deriving DecidableEq, Repr

/-- `OpenAIConfig`. -/
structure OpenAIConfig where
  APIKey : String
  BaseURL : String
  Model : String
deriving DecidableEq, Repr

/-- `LoggingConfig`. -/
structure LoggingConfig where
  Level : String
  Format : String
  Output : String
  File : String
deriving DecidableEq, Repr

/-- `CacheConfig`. -/
structure CacheConfig where
  TTL : String
  CleanupInterval : String
  MaxSize : Int
  Strategy : String
deriving DecidableEq, Repr

/-- `RateLimitConfig`. -/
structure RateLimitConfig where
  Enabled : Bool
  RPS : Int
  Burst : Int
deriving DecidableEq, Repr

/-- `CORSConfig`. -/
structure CORSConfig where
  AllowedOrigins : List String
  AllowedMethods : List String
  AllowedHeaders : List String
deriving DecidableEq, Repr

/-- `SecurityConfig`. -/
structure SecurityConfig where
  RateLimit : RateLimitConfig
  CORS : CORSConfig
  EncryptionKey : String
  EncryptionAlgorithm : String
deriving DecidableEq, Repr

/-- `MetricsConfig`. -/
structure MetricsConfig where
  Enabled : Bool
  Path : String
  Port : Int
deriving DecidableEq, Repr

/-- The top-level `Config` struct. -/
structure Config where
  Server : ServerConfig
  Database : DatabaseConfig
  Auth : AuthConfig
  NATS : NATSConfig
  Redis : RedisConfig
  OpenAI : OpenAIConfig
  Logging : LoggingConfig
  Cache : CacheConfig
  Security : SecurityConfig
  Metrics : MetricsConfig
deriving DecidableEq, Repr

/-- The registrations performed by `setDefaults`, key for key. -/
def defaultSettings : List (String × CVal) :=
  [ ("server.host", .str "localhost"),
    ("server.port", .num 8081),
    ("server.read_timeout", .str "30s"),
    ("server.write_timeout", .str "30s"),
    ("server.idle_timeout", .str "60s"),
    ("server.tls.enabled", .flag false),
    ("database.host", .str "localhost"),
    ("database.port", .num 5432),
    ("database.user", .str "bpms_user"),
    ("database.password", .str "bpms_pass"),
    ("database.dbname", .str "ai_bpms"),
    ("database.sslmode", .str "disable"),
    ("database.max_open_conns", .num 25),
    ("database.max_idle_conns", .num 10),
    ("database.max_lifetime", .str "5m"),
    ("auth.provider", .str "jwt"),
    ("auth.jwt.secret", .str "change-me-in-production"),
    ("auth.jwt.access_token_duration", .str "15m"),
    ("auth.jwt.refresh_token_duration", .str "168h"),
    ("auth.jwt.issuer", .str "ai-bpms"),
    ("auth.jwt.audience", .str "ai-bpms-users"),
    ("auth.built_in.enabled", .flag true),
    ("auth.security.session_timeout", .str "4h"),
    ("auth.security.max_concurrent_sessions", .num 3),
    ("nats.url", .str "nats://localhost:4222"),
    ("nats.cluster_id", .str "bpms-cluster"),
    ("nats.client_id", .str "bpms-client"),
    ("redis.host", .str "localhost"),
    ("redis.port", .num 6379),
    ("redis.db", .num 0),
    ("redis.pool_size", .num 10),
    ("ai.openai.base_url", .str "https://api.openai.com/v1"),
    ("ai.openai.model", .str "gpt-4"),
    ("logging.level", .str "info"),
    ("logging.format", .str "json"),
    ("logging.output", .str "stdout"),
    ("cache.ttl", .str "1h"),
    ("cache.cleanup_interval", .str "10m"),
    ("cache.max_size", .num 1000),
    ("cache.strategy", .str "lru"),
    ("security.rate_limit.enabled", .flag true),
    ("security.rate_limit.rps", .num 100),
    ("security.rate_limit.burst", .num 200),
    ("security.cors.allowed_origins", .strs ["*"]),
    ("security.cors.allowed_methods", .strs ["GET", "POST", "PUT", "DELETE", "OPTIONS"]),
    ("security.cors.allowed_headers", .strs ["*"]),
    ("security.encryption.algorithm", .str "AES-256-GCM"),
    ("metrics.enabled", .flag true),
    ("metrics.path", .str "/metrics"),
    ("metrics.port", .num 9090) ]

/-- Association-list lookup on settings. -/
def lookupSetting : List (String × CVal) → String → Option CVal
  | [], _ => none
  | (k, v) :: rest, key => if k = key then some v else lookupSetting rest key

/-- Decode a string-typed field: an absent key takes Go's zero value. -/
def getStr (g : String → Option CVal) (k : String) : Except String String :=
  match g k with
  | none => .ok ""
  | some (.str s) => .ok s
  | some _ => .error ("failed to unmarshal config: key " ++ k)

/-- Decode an integer-typed field. -/
def getInt (g : String → Option CVal) (k : String) : Except String Int :=
  match g k with
  | none => .ok 0
  | some (.num n) => .ok n
  | some _ => .error ("failed to unmarshal config: key " ++ k)

/-- Decode a boolean-typed field. -/
def getFlag (g : String → Option CVal) (k : String) : Except String Bool :=
  match g k with
  | none => .ok false
  | some (.flag b) => .ok b
  | some _ => .error ("failed to unmarshal config: key " ++ k)

/-- Decode a string-slice-typed field. -/
def getStrs (g : String → Option CVal) (k : String) : Except String (List String) :=
  match g k with
  | none => .ok []
  | some (.strs l) => .ok l
  | some _ => .error ("failed to unmarshal config: key " ++ k)

/-- `viper.Unmarshal(&config)`: decode every field from the effective
settings via its `mapstructure` key path. -/
def unmarshalConfig (g : String → Option CVal) : Except String Config := do
  let server : ServerConfig :=
    { Host := ← getStr g "server.host",
      Port := ← getInt g "server.port",
      ReadTimeout := ← getStr g "server.read_timeout",
      WriteTimeout := ← getStr g "server.write_timeout",
      IdleTimeout := ← getStr g "server.idle_timeout",
      TLSEnabled := ← getFlag g "server.tls.enabled",
      TLSCertFile := ← getStr g "server.tls.cert_file",
      TLSKeyFile := ← getStr g "server.tls.key_file" }
  let database : DatabaseConfig :=
    { Host := ← getStr g "database.host",
      Port := ← getInt g "database.port",
      User := ← getStr g "database.user",
      Password := ← getStr g "database.password",
      DBName := ← getStr g "database.dbname",
      SSLMode := ← getStr g "database.sslmode",
      MaxOpenConns := ← getInt g "database.max_open_conns",
      MaxIdleConns := ← getInt g "database.max_idle_conns",
      MaxLifetime := ← getStr g "database.max_lifetime" }
  let jwt : JWTConfig :=
    { Secret := ← getStr g "auth.jwt.secret",
      AccessTokenDuration := ← getStr g "auth.jwt.access_token_duration",
      RefreshTokenDuration := ← getStr g "auth.jwt.refresh_token_duration",
      Issuer := ← getStr g "auth.jwt.issuer",
      Audience := ← getStr g "auth.jwt.audience" }
  let auth : AuthConfig :=
    { Provider := ← getStr g "auth.provider",
      JWT := jwt,
      BuiltInEnabled := ← getFlag g "auth.built_in.enabled",
      SessionTimeout := ← getStr g "auth.security.session_timeout",
      MaxConcurrentSessions := ← getInt g "auth.security.max_concurrent_sessions" }
  let nats : NATSConfig :=
    { URL := ← getStr g "nats.url",
      ClusterID := ← getStr g "nats.cluster_id",
      ClientID := ← getStr g "nats.client_id" }
  let redis : RedisConfig :=
    { Host := ← getStr g "redis.host",
      Port := ← getInt g "redis.port",
      Password := ← getStr g "redis.password",
      DB := ← getInt g "redis.db",
      PoolSize := ← getInt g "redis.pool_size" }
  let openai : OpenAIConfig :=
    { APIKey := ← getStr g "ai.openai.api_key",
      BaseURL := ← getStr g "ai.openai.base_url",
      Model := ← getStr g "ai.openai.model" }
  let logging : LoggingConfig :=
    { Level := ← getStr g "logging.level",
      Format := ← getStr g "logging.format",
      Output := ← getStr g "logging.output",
      File := ← getStr g "logging.file" }
  let cache : CacheConfig :=
    { TTL := ← getStr g "cache.ttl",
      CleanupInterval := ← getStr g "cache.cleanup_interval",
      MaxSize := ← getInt g "cache.max_size",
      Strategy := ← getStr g "cache.strategy" }
  let security : SecurityConfig :=
    { RateLimit :=
        { Enabled := ← getFlag g "security.rate_limit.enabled",
          RPS := ← getInt g "security.rate_limit.rps",
          Burst := ← getInt g "security.rate_limit.burst" },
      CORS :=
        { AllowedOrigins := ← getStrs g "security.cors.allowed_origins",
          AllowedMethods := ← getStrs g "security.cors.allowed_methods",
          AllowedHeaders := ← getStrs g "security.cors.allowed_headers" },
      EncryptionKey := ← getStr g "security.encryption.key",
      EncryptionAlgorithm := ← getStr g "security.encryption.algorithm" }
  let metrics : MetricsConfig :=
    { Enabled := ← getFlag g "metrics.enabled",
      Path := ← getStr g "metrics.path",
      Port := ← getInt g "metrics.port" }
  pure { Server := server, Database := database, Auth := auth, NATS := nats,
         Redis := redis, OpenAI := openai, Logging := logging, Cache := cache,
         Security := security, Metrics := metrics }

/-- The outcome of viper's attempt to read the config file. -/
inductive FileRead where
  | notFound
  | failure (msg : String)
  | found (settings : List (String × CVal))
deriving DecidableEq, Repr

/-- `config.Load()`: register defaults, read the config file (a missing
file is tolerated, any other read error is returned), then unmarshal with
viper's precedence: environment (`BPMS_`-prefixed, keyed here by the config
key the replacer maps them to) over file over defaults. -/
def Load (file : FileRead) (env : List (String × CVal)) : Except String Config :=
  let decodeWith (fs : List (String × CVal)) : Except String Config :=
    unmarshalConfig (fun k =>
      (lookupSetting env k).orElse (fun _ =>
        (lookupSetting fs k).orElse (fun _ => lookupSetting defaultSettings k)))
  match file with
  | .failure msg => .error ("failed to read config file: " ++ msg)
  | .notFound => decodeWith []
  | .found fs => decodeWith fs

end AppConfig

/-! ## Process & Task Execution Engine

The source implements no engine (every handler is a stub), so everything in
this namespace is modelled from the spec: the Process Definition Store
(§4.1), Rule Evaluator (§4.2), Execution Engine (§4.3) and Task Assignment
(§4.4) of the specification's design of record. -/

namespace Engine

/-- Modelled from the spec: a rule-expression value.  Numbers are modelled
as integers (the spec's IEEE-754 clause is out of scope for the claims
settled here). -/
inductive Value where
  | vBool (b : Bool)
  | vInt (n : Int)
  | vStr (s : String)
deriving DecidableEq, Repr

/-- Modelled from the spec: rule evaluation failures (§4.2 — an unknown
variable reference fails rather than silently defaulting). -/
inductive EvalError where
  | unknownVariable (name : String)
  | typeMismatch
deriving DecidableEq, Repr

/-- A variable context: key→value mapping (first binding wins). -/
abbrev VarContext := List (String × Value)

/-- Lookup in a variable context. -/
def lookupVar : VarContext → String → Option Value
  | [], _ => none
  | (k, v) :: rest, x => if k = x then some v else lookupVar rest x

/-- Modelled from the spec: the bounded expression grammar of the Rule
Evaluator (no loops or recursion constructs, so termination is
structural). -/
inductive Expr where
  | lit (v : Value)
  | varRef (x : String)
  | eqExpr (a b : Expr)
  | ltExpr (a b : Expr)
  | andExpr (a b : Expr)
  | orExpr (a b : Expr)
  | notExpr (a : Expr)
deriving DecidableEq, Repr

/-- The variables an expression references. -/
def varsOf : Expr → List String
  | .lit _ => []
  | .varRef x => [x]
  | .eqExpr a b => varsOf a ++ varsOf b
  | .ltExpr a b => varsOf a ++ varsOf b
  | .andExpr a b => varsOf a ++ varsOf b
  | .orExpr a b => varsOf a ++ varsOf b
  | .notExpr a => varsOf a

/-- Modelled from the spec: `evaluate(expression, variableContext)` —
purely functional, unknown variables fail with an `EvaluationError`,
comparisons are type-strict. -/
def evaluate : Expr → VarContext → Except EvalError Value
  | .lit v, _ => .ok v
  | .varRef x, ctx =>
    match lookupVar ctx x with
    | some v => .ok v
    | none => .error (.unknownVariable x)
  | .eqExpr a b, ctx => do
    let va ← evaluate a ctx
    let vb ← evaluate b ctx
    pure (.vBool (va = vb))
  | .ltExpr a b, ctx => do
    let va ← evaluate a ctx
    let vb ← evaluate b ctx
    match va, vb with
    | .vInt x, .vInt y => pure (.vBool (x < y))
    | .vStr x, .vStr y => pure (.vBool (x < y))
    | _, _ => .error .typeMismatch
  | .andExpr a b, ctx => do
    let va ← evaluate a ctx
    let vb ← evaluate b ctx
    match va, vb with
    | .vBool x, .vBool y => pure (.vBool (x && y))
    | _, _ => .error .typeMismatch
  | .orExpr a b, ctx => do
    let va ← evaluate a ctx
    let vb ← evaluate b ctx
    match va, vb with
    | .vBool x, .vBool y => pure (.vBool (x || y))
    | _, _ => .error .typeMismatch
  | .notExpr a, ctx => do
    let va ← evaluate a ctx
    match va with
    | .vBool x => pure (.vBool (!x))
    | _ => .error .typeMismatch

/-- Modelled from the spec: step types — task, gateway, end. -/
inductive StepType where
  | task
  | gateway
  | endStep
deriving DecidableEq, Repr

/-- Modelled from the spec: a transition — rule expression plus target
step id, listed on its source step in declaration order. -/
structure Transition where
  rule : Expr
  target : String
deriving DecidableEq, Repr

/-- Modelled from the spec: one step of a process graph, with its ordered
outgoing transitions and optional default/else transition. -/
structure Step where
  id : String
  stepType : StepType
  transitions : List Transition
  defaultTarget : Option String
deriving DecidableEq, Repr

/-- Modelled from the spec: a versioned, immutable process template. -/
structure ProcessDefinition where
  key : String
  version : Nat
  startStep : String
  steps : List Step
deriving DecidableEq, Repr

/-- Find a step by id. -/
def getStep (d : ProcessDefinition) (sid : String) : Option Step :=
  d.steps.find? (fun s => decide (s.id = sid))

/-- The ids of a definition's steps. -/
def stepIds (d : ProcessDefinition) : List String :=
  d.steps.map (fun s => s.id)

/-- All targets leaving a step (ordered transitions then the default). -/
def targetsOf (s : Step) : List String :=
  s.transitions.map (fun t => t.target)
    ++ (match s.defaultTarget with | some dflt => [dflt] | none => [])

/-- One expansion round of the reachability closure from the current set. -/
def expandReach (d : ProcessDefinition) (acc : List String) : List String :=
  acc ++ (acc.flatMap (fun sid =>
    match getStep d sid with
    | some s => targetsOf s
    | none => [])).filter (fun x => !acc.contains x)

/-- Fuelled reachability closure. -/
def reachClosure (d : ProcessDefinition) : Nat → List String → List String
  | 0, acc => acc
  | n + 1, acc => reachClosure d n (expandReach d acc)

/-- Modelled from the spec: the §3 graph invariants `publish` validates —
the start step exists, every non-end step has an outgoing transition,
transition targets reference existing steps, and every step is reachable
from the start step. -/
def validateDefinition (d : ProcessDefinition) : Bool :=
  (stepIds d).contains d.startStep &&
  d.steps.all (fun s =>
    decide (s.stepType = .endStep) || !(targetsOf s).isEmpty) &&
  d.steps.all (fun s => (targetsOf s).all (fun t => (stepIds d).contains t)) &&
  (let reach := reachClosure d d.steps.length [d.startStep]
   d.steps.all (fun s => reach.contains s.id))

/-- Modelled from the spec: the engine-level error taxonomy (§7). -/
inductive EngineError where
  | validationError
  | notFoundError
  | evaluationError
  | unroutableStepError
  | conflictError
  | forbiddenError
  | invalidStateError
deriving DecidableEq, Repr

/-- Modelled from the spec: the Process Definition Store — published
definitions keyed by (key, version). -/
structure DefinitionStore where
  entries : List ((String × Nat) × ProcessDefinition)
deriving DecidableEq, Repr

/-- Assoc-list lookup of a published definition. -/
def lookupDef : List ((String × Nat) × ProcessDefinition) → String × Nat →
    Option ProcessDefinition
  | [], _ => none
  | (kv, d) :: rest, key => if kv = key then some d else lookupDef rest key

/-- `get(key, version)` on the store. -/
def getDef (st : DefinitionStore) (k : String) (v : Nat) :
    Option ProcessDefinition :=
  lookupDef st.entries (k, v)

/-- The highest version published under a key (0 when none). -/
def maxVersionFor : List ((String × Nat) × ProcessDefinition) → String → Nat
  | [], _ => 0
  | ((k0, v0), _) :: rest, k =>
    if k0 = k then max v0 (maxVersionFor rest k) else maxVersionFor rest k

/-- Modelled from the spec: `publish(definition) -> (key, version)` —
validates the §3 graph invariants, then stores the definition under the
next version for its key without touching prior versions. -/
def publish (st : DefinitionStore) (d : ProcessDefinition) :
    Except EngineError (DefinitionStore × String × Nat) :=
  if validateDefinition d then
    let v := maxVersionFor st.entries d.key + 1
    .ok ({ entries := ((d.key, v), { d with version := v }) :: st.entries },
         d.key, v)
  else
    .error .validationError

/-- Modelled from the spec: process-instance status (§3). -/
inductive InstanceStatus where
  | running
  | completed
  | cancelled
  | failed
deriving DecidableEq, Repr

/-- Modelled from the spec: task-instance status (§3/§4.4). -/
inductive TaskStatus where
  | created
  | assigned
  | taskCompleted
  | taskCancelled
deriving DecidableEq, Repr

/-- Modelled from the spec: a task instance of one step occurrence. -/
structure TaskInst where
  id : Nat
  stepId : String
  status : TaskStatus
  assignee : Option String
deriving DecidableEq, Repr

/-- Modelled from the spec: a process instance — status, current-step-set,
variable context, and its task instances (§3). -/
structure Instance where
  defn : ProcessDefinition
  status : InstanceStatus
  currentSteps : List String
  vars : VarContext
  tasks : List TaskInst
  nextTaskId : Nat
  failure : Option EngineError
deriving DecidableEq, Repr

/-- Entering a step: a task-type step gets a fresh TaskInstance in Created
state; other steps need no bookkeeping on entry. -/
def enterStep (inst : Instance) (sid : String) : Instance :=
  match getStep inst.defn sid with
  | some s =>
    if s.stepType = .task then
      { inst with
        tasks := inst.tasks ++ [⟨inst.nextTaskId, sid, .created, none⟩],
        nextTaskId := inst.nextTaskId + 1 }
    else inst
  | none => inst

/-- Move one branch of the current-step-set from `src` to `tgt` and enter
the target step. -/
def moveTo (inst : Instance) (src tgt : String) : Instance :=
  enterStep
    { inst with
      currentSteps := inst.currentSteps.map (fun x => if x = src then tgt else x) }
    tgt

/-- Record an advance-time failure: the instance becomes terminal Failed
with the error captured (§7 — not thrown back to the caller). -/
def markFailed (inst : Instance) (e : EngineError) : Instance :=
  { inst with status := .failed, failure := some e }

/-- Outcome of scanning a step's transitions in declaration order. -/
inductive RouteResult where
  | taken (target : String)
  | failedEval
  | noMatch
deriving DecidableEq, Repr

/-- Modelled from the spec: first-match-wins transition scan — the first
transition whose rule evaluates to true is taken; a rule evaluation error
(or a non-boolean rule value) aborts the scan. -/
def firstMatch (ctx : VarContext) : List Transition → RouteResult
  | [] => .noMatch
  | t :: rest =>
    match evaluate t.rule ctx with
    | .ok (.vBool true) => .taken t.target
    | .ok (.vBool false) => firstMatch ctx rest
    | _ => .failedEval

/-- Modelled from the spec: route one current step along its outgoing
transitions — first match wins, then the default/else transition, and with
no match and no default the instance fails with `UnroutableStepError`;
an evaluation error fails it with `EvaluationError`. -/
def routeStep (inst : Instance) (sid : String) (s : Step) : Instance :=
  match firstMatch inst.vars s.transitions with
  | .taken tgt => moveTo inst sid tgt
  | .failedEval => markFailed inst .evaluationError
  | .noMatch =>
    match s.defaultTarget with
    | some dflt => moveTo inst sid dflt
    | none => markFailed inst .unroutableStepError

/-- Modelled from the spec: process one non-task current step.  An end step
leaves the current-step-set, completing the instance when the set empties;
a gateway routes by `routeStep`.  (Task steps are never processed here —
they wait for external completion.) -/
def processStep (inst : Instance) (sid : String) (s : Step) : Instance :=
  match s.stepType with
  | .endStep =>
    let rest := inst.currentSteps.filter (fun x => decide (x ≠ sid))
    if rest.isEmpty then
      { inst with currentSteps := [], status := .completed }
    else
      { inst with currentSteps := rest }
  | .task => inst
  | .gateway => routeStep inst sid s

/-- The first current step the advance loop can make progress on: any
non-task step (a current id missing from the definition also counts, and is
failed when picked). -/
def findWorkable (inst : Instance) : Option String :=
  inst.currentSteps.find? (fun sid =>
    match getStep inst.defn sid with
    | some s => !decide (s.stepType = .task)
    | none => true)

/-- Modelled from the spec: the fuelled `advance` loop — while the instance
is Running and a non-task step is current, process it. -/
def advanceLoop : Nat → Instance → Instance
  | 0, inst => inst
  | n + 1, inst =>
    if inst.status = .running then
      match findWorkable inst with
      | none => inst
      | some sid =>
        match getStep inst.defn sid with
        | some s => advanceLoop n (processStep inst sid s)
        | none => advanceLoop n (markFailed inst .unroutableStepError)
    else inst

/-- Modelled from the spec: `start` — create the instance at the
definition's start step and immediately advance. -/
def startInstance (d : ProcessDefinition) (initialVariables : VarContext)
    (fuel : Nat) : Instance :=
  let inst0 : Instance :=
    { defn := d, status := .running, currentSteps := [d.startStep],
      vars := initialVariables, tasks := [], nextTaskId := 0, failure := none }
  advanceLoop fuel (enterStep inst0 d.startStep)

/-- Find a task instance by id. -/
def findTask (inst : Instance) (tid : Nat) : Option TaskInst :=
  inst.tasks.find? (fun t => decide (t.id = tid))

/-- Replace the task with the given id. -/
def updateTask (inst : Instance) (tid : Nat) (f : TaskInst → TaskInst) :
    Instance :=
  { inst with
    tasks := inst.tasks.map (fun t => if t.id = tid then f t else t) }

/-- Modelled from the spec: `claim(taskId, userId)` — Created→Assigned,
first claim wins; a claim against another user's assignment fails with
`ConflictError` and mutates nothing; re-claiming one's own task is a
no-op (claims are caller-retry-safe, §7). -/
def claimTask (inst : Instance) (tid : Nat) (userId : String) :
    Except EngineError Instance :=
  match findTask inst tid with
  | none => .error .notFoundError
  | some t =>
    match t.status with
    | .created =>
      .ok (updateTask inst tid (fun t0 =>
        { t0 with status := .assigned, assignee := some userId }))
    | .assigned =>
      if t.assignee = some userId then .ok inst else .error .conflictError
    | _ => .error .invalidStateError

/-- Merge task output variables into the instance context: the later
writes (the outputs) overwrite earlier bindings. -/
def mergeVars (vars out : VarContext) : VarContext :=
  out ++ vars

/-- Modelled from the spec: `completeTask(taskId, userId, outputVariables)`
— Assigned→Completed only by the assignee (`ForbiddenError` otherwise,
`InvalidStateError` for a task or instance in an incompatible state); on
success the outputs merge into the context and the engine resumes along the
task step's outgoing transitions. -/
def completeTask (inst : Instance) (tid : Nat) (userId : String)
    (out : VarContext) (fuel : Nat) : Except EngineError Instance :=
  if inst.status = .running then
    match findTask inst tid with
    | none => .error .notFoundError
    | some t =>
      match t.status with
      | .assigned =>
        if t.assignee = some userId then
          let inst1 := updateTask inst tid
            (fun t0 => { t0 with status := .taskCompleted })
          let inst2 := { inst1 with vars := mergeVars inst1.vars out }
          if inst2.currentSteps.contains t.stepId then
            match getStep inst2.defn t.stepId with
            | some s => .ok (advanceLoop fuel (routeStep inst2 t.stepId s))
            | none => .ok (markFailed inst2 .unroutableStepError)
          else .ok inst2
        else .error .forbiddenError
      | _ => .error .invalidStateError
  else .error .invalidStateError

/-- Modelled from the spec: `cancel(instanceId)` — a Running instance
moves to Cancelled with its current-step-set emptied and open tasks
cancelled; cancelling an already-terminal instance succeeds and is a
no-op. -/
def cancelInstance (inst : Instance) : Except EngineError Instance :=
  match inst.status with
  | .running =>
    .ok { inst with
          status := .cancelled,
          currentSteps := [],
          tasks := inst.tasks.map (fun t =>
            if t.status = .created ∨ t.status = .assigned then
              { t with status := .taskCancelled }
            else t) }
  | _ => .ok inst

/-- An external engine operation on one instance (the per-instance lock of
§5 serializes them, so a run is a sequence). -/
inductive EngineOp where
  | opClaim (tid : Nat) (userId : String)
  | opComplete (tid : Nat) (userId : String) (out : VarContext) (fuel : Nat)
  | opCancel
  | opAdvance (fuel : Nat)
deriving Repr

/-- Apply one operation; a synchronous error leaves the state unchanged
(§7). -/
def applyOp (inst : Instance) : EngineOp → Instance
  | .opClaim tid userId =>
    match claimTask inst tid userId with
    | .ok i => i
    | .error _ => inst
  | .opComplete tid userId out fuel =>
    match completeTask inst tid userId out fuel with
    | .ok i => i
    | .error _ => inst
  | .opCancel =>
    match cancelInstance inst with
    | .ok i => i
    | .error _ => inst
  | .opAdvance fuel => advanceLoop fuel inst

/-- Every instance state reachable from `start` by a sequence of engine
operations. -/
def runOps (d : ProcessDefinition) (initialVariables : VarContext)
    (fuel : Nat) (ops : List EngineOp) : Instance :=
  ops.foldl applyOp (startInstance d initialVariables fuel)

/-- The §3 status/current-step-set invariant. -/
def statusInv (inst : Instance) : Prop :=
  ((inst.status = .completed ∨ inst.status = .cancelled) →
    inst.currentSteps = []) ∧
  (inst.status = .running → inst.currentSteps ≠ [])

end Engine

end BPMS

/-! # Theorems -/

namespace BPMS

/-- Helper: the inner fold of `joinStrings` computes the reference join of
its accumulator consed onto the remaining elements. -/
theorem joinStrings_foldl_eq (sep : String) (ts : List String) (t : String) :
    ts.foldl (fun acc x => acc ++ (sep ++ x)) t = stringsJoin (t :: ts) sep := by
  induction ts generalizing t with
  | nil => simp [stringsJoin]
  | cons x xs ih =>
    simp only [List.foldl_cons]
    rw [ih (t ++ (sep ++ x))]
    cases xs with
    | nil => simp [stringsJoin, String.append_assoc]
    | cons y ys => simp [stringsJoin, String.append_assoc]

/-- Claim C1: every route registered under `/api/v1` is bound to a
placeholder stub: on any request it answers status 200 with a JSON body
holding only a message containing "TODO: Implement", and its response is
independent of the request (so it performs no workflow, rule-evaluation,
scheduling, or authentication logic). -/
theorem apiV1_handlers_are_stubs :
    ∀ r ∈ Http.apiV1Routes, ∀ req req' : Http.Request,
      (Http.handle r.handler req).status = 200 ∧
      Http.handle r.handler req = Http.handle r.handler req' ∧
      ∃ m, (Http.handle r.handler req).body = [("message", m)] ∧
        Http.todoMark.data <:+: m.data := by
  intro r hr req req'
  fin_cases hr <;> exact ⟨rfl, rfl, _, rfl, by decide⟩

/-- Witness for C1 at the `/api/v1/auth/login` route and a concrete
request. -/
theorem apiV1_handlers_are_stubs_witness :
    (Http.handle .loginHandler ⟨"POST", "/api/v1/auth/login", [], ""⟩).status = 200 ∧
    Http.handle .loginHandler ⟨"POST", "/api/v1/auth/login", [], ""⟩
      = Http.handle .loginHandler ⟨"GET", "/other", [("h", "v")], "payload"⟩ ∧
    ∃ m, (Http.handle .loginHandler ⟨"POST", "/api/v1/auth/login", [], ""⟩).body
        = [("message", m)] ∧ Http.todoMark.data <:+: m.data :=
  apiV1_handlers_are_stubs ⟨"POST", "/api/v1/auth/login", .loginHandler⟩
    (by decide) _ _

/-- Claim C10: `joinStrings strs sep` agrees with the `strings.Join`
reference: empty input gives `""`, otherwise the elements are concatenated
in order with `sep` between each adjacent pair. -/
theorem joinStrings_eq_stringsJoin (strs : List String) (sep : String) :
    joinStrings strs sep = stringsJoin strs sep := by
  cases strs with
  | nil => simp [joinStrings, stringsJoin]
  | cons s rest =>
    simp only [joinStrings]
    exact joinStrings_foldl_eq sep rest s

namespace MigrationRunner

/-- Helper: the fold of `Run`'s loop appends to `migration_records` exactly
the versions of the not-yet-applied migrations, in list order. -/
theorem foldl_runStep_records (applied : String → Bool) (ms : List Migration)
    (st : DBState) :
    (ms.foldl (runStep applied) st).migrationRecords
      = st.migrationRecords
        ++ (ms.filter (fun m => !applied m.version)).map (fun m => m.version) := by
  induction ms generalizing st with
  | nil => simp
  | cons m rest ih =>
    simp only [List.foldl_cons, List.filter_cons]
    by_cases h : applied m.version
    · simp [runStep, h, ih]
    · simp only [runStep, h, if_neg, Bool.not_eq_true', ih]
      simp [h]

/-- Helper: the fold of `Run`'s loop executes exactly the `Up` functions of
the not-yet-applied migrations, in list order. -/
theorem foldl_runStep_ups (applied : String → Bool) (ms : List Migration)
    (st : DBState) :
    (ms.foldl (runStep applied) st).appliedUps
      = st.appliedUps
        ++ (ms.filter (fun m => !applied m.version)).map (fun m => m.version) := by
  induction ms generalizing st with
  | nil => simp
  | cons m rest ih =>
    simp only [List.foldl_cons, List.filter_cons]
    by_cases h : applied m.version
    · simp [runStep, h, ih]
    · simp only [runStep, h, if_neg, Bool.not_eq_true', ih]
      simp [h]

/-- Helper: when every migration in the list is already applied, the fold
leaves the state untouched. -/
theorem foldl_runStep_all_applied (applied : String → Bool) (ms : List Migration)
    (st : DBState) (h : ∀ m ∈ ms, applied m.version = true) :
    ms.foldl (runStep applied) st = st := by
  induction ms generalizing st with
  | nil => rfl
  | cons m rest ih =>
    simp only [List.foldl_cons, runStep, h m (by simp), if_pos]
    exact ih st (fun m' hm' => h m' (by simp [hm']))

/-- Helper: after `run`, every migration of the fixed list is recorded. -/
theorem run_records_all (s : DBState) :
    ∀ m ∈ getMigrations, getAppliedMigrations (run s) m.version = true := by
  intro m hm
  unfold getAppliedMigrations run
  rw [foldl_runStep_records]
  rcases hb : getAppliedMigrations s m.version with _ | _
  · apply List.elem_iff.mpr
    apply List.mem_append_right
    exact List.mem_map.mpr ⟨m, List.mem_filter.mpr ⟨hm, by simp [hb]⟩, rfl⟩
  · apply List.elem_iff.mpr
    apply List.mem_append_left
    exact List.elem_iff.mp hb

/-- Claim C8: `Migrator.Run` applies exactly the migrations of the fixed
list whose version is not yet in `migration_records`, in declaration order,
recording each applied version; consequently a second `Run` right after a
successful one executes no `Up` function and changes nothing. -/
theorem migrator_run_pending_then_idempotent (s : DBState) :
    ((run s).appliedUps = s.appliedUps ++ pendingVersions s ∧
     (run s).migrationRecords = s.migrationRecords ++ pendingVersions s) ∧
    run (run s) = run s := by
  refine ⟨⟨?_, ?_⟩, ?_⟩
  · exact foldl_runStep_ups _ _ _
  · exact foldl_runStep_records _ _ _
  · exact foldl_runStep_all_applied _ _ _ (run_records_all s)

end MigrationRunner

namespace AppConfig

/-- Claim C9: with no config file found and no `BPMS_` environment
variables, `Load` returns no error and the hard-coded defaults
(server host "localhost", port 8081, database port 5432 and user
"bpms_user", auth provider "jwt", rate limiting enabled at 100 RPS with
burst 200, metrics port 9090); a missing config file is not an error,
while a file read failure, or an unmarshal failure such as a non-integer
value under `server.port`, yields an error and no Config. -/
theorem load_defaults_and_errors :
    (∃ cfg : Config, Load .notFound [] = .ok cfg ∧
      cfg.Server.Host = "localhost" ∧ cfg.Server.Port = 8081 ∧
      cfg.Database.Port = 5432 ∧ cfg.Database.User = "bpms_user" ∧
      cfg.Auth.Provider = "jwt" ∧
      cfg.Security.RateLimit.Enabled = true ∧
      cfg.Security.RateLimit.RPS = 100 ∧
      cfg.Security.RateLimit.Burst = 200 ∧
      cfg.Metrics.Port = 9090) ∧
    (∀ msg env, ∃ e, Load (.failure msg) env = .error e) ∧
    (∃ e, Load .notFound [("server.port", CVal.str "abc")] = .error e) := by
  refine ⟨⟨_, rfl, rfl, rfl, rfl, rfl, rfl, rfl, rfl, rfl, rfl⟩,
          fun msg env => ⟨_, rfl⟩, ⟨_, rfl⟩⟩

end AppConfig

namespace Engine

/-- Claim C4: the rule evaluator is deterministic — the result of
`evaluate` is a function of the expression and of the context bindings the
expression references alone, with no dependence on hidden state: two
invocations on contexts that agree on the referenced variables (in
particular, two invocations on the same context) give the same result. -/
theorem evaluate_deterministic (e : Expr) :
    ∀ ctx ctx' : VarContext,
      (∀ x ∈ varsOf e, lookupVar ctx x = lookupVar ctx' x) →
      evaluate e ctx = evaluate e ctx' := by
  induction e with
  | lit v => intro ctx ctx' _; rfl
  | varRef x =>
    intro ctx ctx' h
    simp [evaluate, h x (by simp [varsOf])]
  | eqExpr a b iha ihb =>
    intro ctx ctx' h
    have ha := iha ctx ctx' (fun x hx => h x (by simp [varsOf, hx]))
    have hb := ihb ctx ctx' (fun x hx => h x (by simp [varsOf, hx]))
    simp only [evaluate, ha, hb]
  | ltExpr a b iha ihb =>
    intro ctx ctx' h
    have ha := iha ctx ctx' (fun x hx => h x (by simp [varsOf, hx]))
    have hb := ihb ctx ctx' (fun x hx => h x (by simp [varsOf, hx]))
    simp only [evaluate, ha, hb]
  | andExpr a b iha ihb =>
    intro ctx ctx' h
    have ha := iha ctx ctx' (fun x hx => h x (by simp [varsOf, hx]))
    have hb := ihb ctx ctx' (fun x hx => h x (by simp [varsOf, hx]))
    simp only [evaluate, ha, hb]
  | orExpr a b iha ihb =>
    intro ctx ctx' h
    have ha := iha ctx ctx' (fun x hx => h x (by simp [varsOf, hx]))
    have hb := ihb ctx ctx' (fun x hx => h x (by simp [varsOf, hx]))
    simp only [evaluate, ha, hb]
  | notExpr a iha =>
    intro ctx ctx' h
    have ha := iha ctx ctx' (fun x hx => h x (by simp [varsOf, hx]))
    simp only [evaluate, ha]

/-- Witness for C4: a comparison over `approved` evaluated in two contexts
that agree on `approved` but differ elsewhere. -/
theorem evaluate_deterministic_witness :
    (∀ x ∈ varsOf (.eqExpr (.varRef "approved") (.lit (.vBool true))),
      lookupVar [("approved", .vBool true), ("other", .vInt 3)] x
        = lookupVar [("approved", .vBool true)] x) ∧
    evaluate (.eqExpr (.varRef "approved") (.lit (.vBool true)))
        [("approved", .vBool true), ("other", .vInt 3)]
      = evaluate (.eqExpr (.varRef "approved") (.lit (.vBool true)))
        [("approved", .vBool true)] :=
  ⟨by decide,
   evaluate_deterministic (.eqExpr (.varRef "approved") (.lit (.vBool true)))
     [("approved", .vBool true), ("other", .vInt 3)]
     [("approved", .vBool true)] (by decide)⟩

/-- Claim C7: `cancel` is idempotent on terminal instances — on a
Completed, Cancelled or Failed instance it succeeds and returns the
instance completely unchanged (status, current-step-set, variable context
and task instances included). -/
theorem cancel_terminal_noop (inst : Instance)
    (h : inst.status = .completed ∨ inst.status = .cancelled ∨
         inst.status = .failed) :
    cancelInstance inst = .ok inst := by
  rcases h with h | h | h <;> simp [cancelInstance, h]

/-- Witness for C7: cancelling a concrete already-Completed instance. -/
theorem cancel_terminal_noop_witness :
    (Instance.mk ⟨"k", 1, "s", []⟩ .completed [] [] [] 0 none).status
        = .completed ∧
    cancelInstance (Instance.mk ⟨"k", 1, "s", []⟩ .completed [] [] [] 0 none)
      = .ok (Instance.mk ⟨"k", 1, "s", []⟩ .completed [] [] [] 0 none) :=
  ⟨rfl, cancel_terminal_noop _ (Or.inl rfl)⟩

/-- Helper: a stored version never exceeds the per-key maximum. -/
theorem lookupDef_le_maxVersion (l : List ((String × Nat) × ProcessDefinition))
    (k : String) (v : Nat) (d0 : ProcessDefinition)
    (h : lookupDef l (k, v) = some d0) : v ≤ maxVersionFor l k := by
  induction l with
  | nil => simp [lookupDef] at h
  | cons e rest ih =>
    obtain ⟨⟨k0, v0⟩, dd⟩ := e
    by_cases heq : (k0, v0) = (k, v)
    · obtain ⟨hk, hv⟩ := Prod.mk.injEq .. ▸ heq
      subst hk
      subst hv
      simp [maxVersionFor]
    · rw [lookupDef, if_neg heq] at h
      have hrest := ih h
      simp only [maxVersionFor]
      by_cases hk : k0 = k
      · rw [if_pos hk]
        exact le_trans hrest (le_max_right _ _)
      · rw [if_neg hk]
        exact hrest

/-- Claim C2: once `publish` succeeds with `(key, version)`, the
definition is retrievable under that pair, the pair is fresh (the version
was never published before, so no prior version is overwritten), and every
previously published `(key, version)` pair still maps to its original
definition — prior versions are unchanged and retrievable.  (The store is
a value; `publish` is its only mutator, so this also is the statement that
a published version is never mutated.) -/
theorem publish_immutable_versions (st : DefinitionStore)
    (d : ProcessDefinition) (st' : DefinitionStore) (k : String) (v : Nat)
    (h : publish st d = .ok (st', k, v)) :
    getDef st' k v = some { d with version := v } ∧
    getDef st k v = none ∧
    (∀ k0 v0 d0, getDef st k0 v0 = some d0 → getDef st' k0 v0 = some d0) := by
  unfold publish at h
  by_cases hval : validateDefinition d
  · rw [if_pos hval] at h
    obtain ⟨hst, hk, hv⟩ :
        ({ entries := ((d.key, maxVersionFor st.entries d.key + 1),
            { d with version := maxVersionFor st.entries d.key + 1 })
              :: st.entries } : DefinitionStore) = st' ∧
          d.key = k ∧ maxVersionFor st.entries d.key + 1 = v := by
      cases h
      exact ⟨rfl, rfl, rfl⟩
    subst hst
    subst hk
    subst hv
    refine ⟨?_, ?_, ?_⟩
    · simp [getDef, lookupDef]
    · rcases hx : getDef st d.key (maxVersionFor st.entries d.key + 1)
        with _ | d0
      · rfl
      · have := lookupDef_le_maxVersion st.entries d.key _ d0 hx
        omega
    · intro k0 v0 d0 h0
      have hne : ¬((d.key, maxVersionFor st.entries d.key + 1) = (k0, v0)) := by
        intro heq
        obtain ⟨hk0, hv0⟩ := Prod.mk.injEq .. ▸ heq
        subst hk0
        have := lookupDef_le_maxVersion st.entries d.key v0 d0 h0
        omega
      simpa [getDef, lookupDef, hne] using h0
  · rw [if_neg hval] at h
    cases h

/-- Witness for C2: publishing a two-step definition into the empty store
yields version 1, retrievable, with the (vacuously unchanged) prior
contents intact. -/
theorem publish_immutable_versions_witness :
    publish ⟨[]⟩
        ⟨"leave", 0, "start",
          [⟨"start", .gateway, [], some "done"⟩, ⟨"done", .endStep, [], none⟩]⟩
      = .ok (⟨[(("leave", 1),
          ⟨"leave", 1, "start",
            [⟨"start", .gateway, [], some "done"⟩,
             ⟨"done", .endStep, [], none⟩]⟩)]⟩, "leave", 1) ∧
    (getDef ⟨[(("leave", 1),
          ⟨"leave", 1, "start",
            [⟨"start", .gateway, [], some "done"⟩,
             ⟨"done", .endStep, [], none⟩]⟩)]⟩ "leave" 1
        = some ⟨"leave", 1, "start",
            [⟨"start", .gateway, [], some "done"⟩,
             ⟨"done", .endStep, [], none⟩]⟩ ∧
      getDef ⟨[]⟩ "leave" 1 = none ∧
      (∀ k0 v0 d0, getDef ⟨[]⟩ k0 v0 = some d0 →
        getDef ⟨[(("leave", 1),
          ⟨"leave", 1, "start",
            [⟨"start", .gateway, [], some "done"⟩,
             ⟨"done", .endStep, [], none⟩]⟩)]⟩ k0 v0 = some d0)) :=
  ⟨by rfl,
   publish_immutable_versions ⟨[]⟩
     ⟨"leave", 0, "start",
       [⟨"start", .gateway, [], some "done"⟩, ⟨"done", .endStep, [], none⟩]⟩
     _ "leave" 1 (by rfl)⟩

/-- Helper: updating the task with a given id (by an id-preserving edit)
updates exactly what `find?` locates under that id. -/
theorem find?_map_update (tasks : List TaskInst) (tid : Nat)
    (f : TaskInst → TaskInst) (hid : ∀ t, (f t).id = t.id) :
    (tasks.map (fun t => if t.id = tid then f t else t)).find?
        (fun t => decide (t.id = tid))
      = (tasks.find? (fun t => decide (t.id = tid))).map f := by
  induction tasks with
  | nil => rfl
  | cons t0 rest ih =>
    by_cases h : t0.id = tid
    · simp [List.find?_cons, h, hid]
    · simp [List.find?_cons, h, ih]

/-- Claim C6: `claim` moves a Created task to Assigned with the claiming
user as assignee; a second claim by a different user fails with
`ConflictError` and changes nothing (the error carries no new state), so
of two claims by different users exactly the first succeeds and the task's
assignee is the first claimer. -/
theorem claim_first_wins (inst : Instance) (tid : Nat) (u1 u2 : String)
    (t : TaskInst) (hfind : findTask inst tid = some t)
    (hst : t.status = .created) (hne : u1 ≠ u2) :
    ∃ inst',
      claimTask inst tid u1 = .ok inst' ∧
      findTask inst' tid
        = some { t with status := .assigned, assignee := some u1 } ∧
      claimTask inst' tid u2 = .error .conflictError := by
  refine ⟨updateTask inst tid
    (fun t0 => { t0 with status := .assigned, assignee := some u1 }),
    ?_, ?_, ?_⟩
  · simp [claimTask, hfind, hst]
  · unfold findTask updateTask
    rw [find?_map_update inst.tasks tid
      (fun t0 => { t0 with status := .assigned, assignee := some u1 })
      (fun t0 => rfl)]
    unfold findTask at hfind
    simp [hfind]
  · have hfind' : findTask (updateTask inst tid
        (fun t0 => { t0 with status := .assigned, assignee := some u1 })) tid
        = some { t with status := .assigned, assignee := some u1 } := by
      unfold findTask updateTask
      rw [find?_map_update inst.tasks tid
      (fun t0 => { t0 with status := .assigned, assignee := some u1 })
      (fun t0 => rfl)]
      unfold findTask at hfind
      simp [hfind]
    simp only [claimTask, hfind']
    have : ¬(some u1 = some u2) := by
      intro hcon
      exact hne (Option.some.injEq u1 u2 ▸ hcon)
    simp [this]

/-- Witness for C6: `alice` then `bob` claim the one Created task of a
concrete instance. -/
theorem claim_first_wins_witness :
    findTask (Instance.mk ⟨"k", 1, "s", []⟩ .running ["review"] []
        [⟨0, "review", .created, none⟩] 1 none) 0
      = some ⟨0, "review", .created, none⟩ ∧
    (⟨0, "review", .created, none⟩ : TaskInst).status = .created ∧
    "alice" ≠ "bob" ∧
    ∃ inst',
      claimTask (Instance.mk ⟨"k", 1, "s", []⟩ .running ["review"] []
          [⟨0, "review", .created, none⟩] 1 none) 0 "alice" = .ok inst' ∧
      findTask inst' 0 = some ⟨0, "review", .assigned, some "alice"⟩ ∧
      claimTask inst' 0 "bob" = .error .conflictError :=
  ⟨by rfl, rfl, by decide,
   claim_first_wins _ 0 "alice" "bob" ⟨0, "review", .created, none⟩
     (by rfl) rfl (by decide)⟩

/-- Helper: first-match-wins scan characterized — when every rule on the
list evaluates to a boolean, either some transition splits the list with
all earlier rules false and its own rule true and the scan takes it, or
every rule is false and the scan reports no match. -/
theorem firstMatch_spec (ctx : VarContext) (ts : List Transition)
    (hOK : ∀ t ∈ ts, ∃ b, evaluate t.rule ctx = .ok (.vBool b)) :
    (∃ pre t post, ts = pre ++ t :: post ∧
      evaluate t.rule ctx = .ok (.vBool true) ∧
      (∀ t' ∈ pre, evaluate t'.rule ctx = .ok (.vBool false)) ∧
      firstMatch ctx ts = .taken t.target) ∨
    ((∀ t ∈ ts, evaluate t.rule ctx = .ok (.vBool false)) ∧
      firstMatch ctx ts = .noMatch) := by
  induction ts with
  | nil => exact Or.inr ⟨by simp, rfl⟩
  | cons t rest ih =>
    obtain ⟨b, hb⟩ := hOK t (by simp)
    cases b with
    | true =>
      exact Or.inl ⟨[], t, rest, rfl, hb, by simp, by simp [firstMatch, hb]⟩
    | false =>
      have hrest := ih (fun t' ht' => hOK t' (by simp [ht']))
      rcases hrest with ⟨pre, t1, post, hsplit, ht1, hpre, hfm⟩ | ⟨hall, hfm⟩
      · refine Or.inl ⟨t :: pre, t1, post, by simp [hsplit], ht1, ?_, ?_⟩
        · intro t' ht'
          rcases List.mem_cons.mp ht' with h | h
          · rw [h]; exact hb
          · exact hpre t' h
        · simp [firstMatch, hb, hfm]
      · refine Or.inr ⟨?_, by simp [firstMatch, hb, hfm]⟩
        intro t' ht'
        rcases List.mem_cons.mp ht' with h | h
        · rw [h]; exact hb
        · exact hall t' h

/-- Claim C5: during advance, a routing (gateway) current step of a
Running instance is resolved by evaluating its outgoing transitions in
declaration order: the first transition whose rule is true is taken; if
none is true the default/else transition is taken when present; with no
match and no default the instance becomes Failed with
`UnroutableStepError` recorded.  (End steps are the only other non-task
steps; per §3 they have no outgoing transitions and complete the instance
instead of routing.) -/
theorem advance_first_match_routing (inst : Instance) (sid : String)
    (s : Step) (hrun : inst.status = .running)
    (hstep : getStep inst.defn sid = some s) (hgw : s.stepType = .gateway)
    (hOK : ∀ t ∈ s.transitions, ∃ b, evaluate t.rule inst.vars = .ok (.vBool b)) :
    (∃ pre t post, s.transitions = pre ++ t :: post ∧
      evaluate t.rule inst.vars = .ok (.vBool true) ∧
      (∀ t' ∈ pre, evaluate t'.rule inst.vars = .ok (.vBool false)) ∧
      processStep inst sid s = moveTo inst sid t.target) ∨
    ((∀ t ∈ s.transitions, evaluate t.rule inst.vars = .ok (.vBool false)) ∧
      ((∃ dflt, s.defaultTarget = some dflt ∧
          processStep inst sid s = moveTo inst sid dflt) ∨
        (s.defaultTarget = none ∧
          (processStep inst sid s).status = .failed ∧
          (processStep inst sid s).failure = some .unroutableStepError))) := by
  have hps : processStep inst sid s = routeStep inst sid s := by
    unfold processStep
    rw [hgw]
  rcases firstMatch_spec inst.vars s.transitions hOK with
    ⟨pre, t, post, hsplit, ht, hpre, hfm⟩ | ⟨hall, hfm⟩
  · exact Or.inl ⟨pre, t, post, hsplit, ht, hpre,
      by rw [hps]; unfold routeStep; rw [hfm]⟩
  · refine Or.inr ⟨hall, ?_⟩
    rcases hd : s.defaultTarget with _ | dflt
    · refine Or.inr ⟨rfl, ?_, ?_⟩ <;>
        · rw [hps]; unfold routeStep; rw [hfm, hd]; rfl
    · exact Or.inl ⟨dflt, rfl, by rw [hps]; unfold routeStep; rw [hfm, hd]⟩

/-- Witness for C5: a gateway whose first rule is false and second is
true routes to the second target. -/
theorem advance_first_match_routing_witness :
    (Instance.mk
        ⟨"k", 1, "g",
          [⟨"g", .gateway,
             [⟨.lit (.vBool false), "a"⟩, ⟨.lit (.vBool true), "b"⟩], none⟩,
           ⟨"a", .endStep, [], none⟩, ⟨"b", .endStep, [], none⟩]⟩
        .running ["g"] [] [] 0 none).status = .running ∧
    getStep (Instance.mk
        ⟨"k", 1, "g",
          [⟨"g", .gateway,
             [⟨.lit (.vBool false), "a"⟩, ⟨.lit (.vBool true), "b"⟩], none⟩,
           ⟨"a", .endStep, [], none⟩, ⟨"b", .endStep, [], none⟩]⟩
        .running ["g"] [] [] 0 none).defn "g"
      = some ⟨"g", .gateway,
          [⟨.lit (.vBool false), "a"⟩, ⟨.lit (.vBool true), "b"⟩], none⟩ ∧
    ((∃ pre t post,
        ([⟨.lit (.vBool false), "a"⟩, ⟨.lit (.vBool true), "b"⟩]
           : List Transition) = pre ++ t :: post ∧
        evaluate t.rule [] = .ok (.vBool true) ∧
        (∀ t' ∈ pre, evaluate t'.rule [] = .ok (.vBool false)) ∧
        processStep (Instance.mk
            ⟨"k", 1, "g",
              [⟨"g", .gateway,
                 [⟨.lit (.vBool false), "a"⟩, ⟨.lit (.vBool true), "b"⟩], none⟩,
               ⟨"a", .endStep, [], none⟩, ⟨"b", .endStep, [], none⟩]⟩
            .running ["g"] [] [] 0 none) "g"
            ⟨"g", .gateway,
              [⟨.lit (.vBool false), "a"⟩, ⟨.lit (.vBool true), "b"⟩], none⟩
          = moveTo (Instance.mk
            ⟨"k", 1, "g",
              [⟨"g", .gateway,
                 [⟨.lit (.vBool false), "a"⟩, ⟨.lit (.vBool true), "b"⟩], none⟩,
               ⟨"a", .endStep, [], none⟩, ⟨"b", .endStep, [], none⟩]⟩
            .running ["g"] [] [] 0 none) "g" t.target) ∨
      ((∀ t ∈ ([⟨.lit (.vBool false), "a"⟩, ⟨.lit (.vBool true), "b"⟩]
           : List Transition), evaluate t.rule [] = .ok (.vBool false)) ∧
        ((∃ dflt, (none : Option String) = some dflt ∧
            processStep (Instance.mk
              ⟨"k", 1, "g",
                [⟨"g", .gateway,
                   [⟨.lit (.vBool false), "a"⟩, ⟨.lit (.vBool true), "b"⟩], none⟩,
                 ⟨"a", .endStep, [], none⟩, ⟨"b", .endStep, [], none⟩]⟩
              .running ["g"] [] [] 0 none) "g"
              ⟨"g", .gateway,
                [⟨.lit (.vBool false), "a"⟩, ⟨.lit (.vBool true), "b"⟩], none⟩
            = moveTo (Instance.mk
              ⟨"k", 1, "g",
                [⟨"g", .gateway,
                   [⟨.lit (.vBool false), "a"⟩, ⟨.lit (.vBool true), "b"⟩], none⟩,
                 ⟨"a", .endStep, [], none⟩, ⟨"b", .endStep, [], none⟩]⟩
              .running ["g"] [] [] 0 none) "g" dflt) ∨
          ((none : Option String) = none ∧
            (processStep (Instance.mk
              ⟨"k", 1, "g",
                [⟨"g", .gateway,
                   [⟨.lit (.vBool false), "a"⟩, ⟨.lit (.vBool true), "b"⟩], none⟩,
                 ⟨"a", .endStep, [], none⟩, ⟨"b", .endStep, [], none⟩]⟩
              .running ["g"] [] [] 0 none) "g"
              ⟨"g", .gateway,
                [⟨.lit (.vBool false), "a"⟩, ⟨.lit (.vBool true), "b"⟩], none⟩).status
              = .failed ∧
            (processStep (Instance.mk
              ⟨"k", 1, "g",
                [⟨"g", .gateway,
                   [⟨.lit (.vBool false), "a"⟩, ⟨.lit (.vBool true), "b"⟩], none⟩,
                 ⟨"a", .endStep, [], none⟩, ⟨"b", .endStep, [], none⟩]⟩
              .running ["g"] [] [] 0 none) "g"
              ⟨"g", .gateway,
                [⟨.lit (.vBool false), "a"⟩, ⟨.lit (.vBool true), "b"⟩], none⟩).failure
              = some .unroutableStepError)))) :=
  ⟨rfl, by rfl,
   advance_first_match_routing
     (Instance.mk
       ⟨"k", 1, "g",
         [⟨"g", .gateway,
            [⟨.lit (.vBool false), "a"⟩, ⟨.lit (.vBool true), "b"⟩], none⟩,
          ⟨"a", .endStep, [], none⟩, ⟨"b", .endStep, [], none⟩]⟩
       .running ["g"] [] [] 0 none) "g"
     ⟨"g", .gateway,
       [⟨.lit (.vBool false), "a"⟩, ⟨.lit (.vBool true), "b"⟩], none⟩
     rfl (by rfl) rfl
     (by
       intro t ht
       fin_cases ht
       · exact ⟨false, rfl⟩
       · exact ⟨true, rfl⟩)⟩

/-- Helper: entering a step never changes the instance status. -/
theorem enterStep_status (inst : Instance) (sid : String) :
    (enterStep inst sid).status = inst.status := by
  unfold enterStep
  cases getStep inst.defn sid with
  | none => rfl
  | some s => by_cases h : s.stepType = .task <;> simp [h]

/-- Helper: entering a step never changes the current-step-set. -/
theorem enterStep_currentSteps (inst : Instance) (sid : String) :
    (enterStep inst sid).currentSteps = inst.currentSteps := by
  unfold enterStep
  cases getStep inst.defn sid with
  | none => rfl
  | some s => by_cases h : s.stepType = .task <;> simp [h]

/-- Helper: `moveTo` keeps the status. -/
theorem moveTo_status (inst : Instance) (src tgt : String) :
    (moveTo inst src tgt).status = inst.status := by
  unfold moveTo
  rw [enterStep_status]

/-- Helper: `moveTo` substitutes within the current-step-set. -/
theorem moveTo_currentSteps (inst : Instance) (src tgt : String) :
    (moveTo inst src tgt).currentSteps
      = inst.currentSteps.map (fun x => if x = src then tgt else x) := by
  unfold moveTo
  rw [enterStep_currentSteps]

/-- Helper: the invariant only reads status and current-step-set. -/
theorem statusInv_of_eq (i j : Instance) (hs : i.status = j.status)
    (hc : i.currentSteps = j.currentSteps) (h : statusInv j) : statusInv i := by
  unfold statusInv at *
  rw [hs, hc]
  exact h

/-- Helper: a Failed instance satisfies the invariant. -/
theorem statusInv_markFailed (inst : Instance) (e : EngineError) :
    statusInv (markFailed inst e) := by
  unfold statusInv markFailed
  exact ⟨fun h => by simp at h, fun h => by simp at h⟩

/-- Helper: moving a branch of a Running instance keeps the invariant. -/
theorem statusInv_moveTo (inst : Instance) (src tgt : String)
    (hrun : inst.status = .running) (hinv : statusInv inst) :
    statusInv (moveTo inst src tgt) := by
  unfold statusInv
  constructor
  · intro h
    rw [moveTo_status, hrun] at h
    rcases h with h | h <;> cases h
  · intro _
    rw [moveTo_currentSteps]
    intro hmap
    simp at hmap
    exact hinv.2 hrun hmap

/-- Helper: routing a step of a Running instance keeps the invariant. -/
theorem statusInv_routeStep (inst : Instance) (sid : String) (s : Step)
    (hrun : inst.status = .running) (hinv : statusInv inst) :
    statusInv (routeStep inst sid s) := by
  unfold routeStep
  cases firstMatch inst.vars s.transitions with
  | taken tgt => exact statusInv_moveTo inst sid tgt hrun hinv
  | failedEval => exact statusInv_markFailed inst _
  | noMatch =>
    cases s.defaultTarget with
    | some dflt => exact statusInv_moveTo inst sid dflt hrun hinv
    | none => exact statusInv_markFailed inst _

/-- Helper: processing one non-task step of a Running instance keeps the
invariant. -/
theorem statusInv_processStep (inst : Instance) (sid : String) (s : Step)
    (hrun : inst.status = .running) (hinv : statusInv inst) :
    statusInv (processStep inst sid s) := by
  unfold processStep
  cases s.stepType with
  | task => exact hinv
  | gateway => exact statusInv_routeStep inst sid s hrun hinv
  | endStep =>
    by_cases hr : (inst.currentSteps.filter (fun x => decide (x ≠ sid))).isEmpty
    · simp only [hr, if_true]
      exact ⟨fun _ => rfl, fun h => by simp at h⟩
    · simp only [hr, if_false, Bool.false_eq_true]
      refine ⟨fun h => ?_, fun _ hnil => ?_⟩
      · dsimp only at h
        rcases h with h | h <;> rw [hrun] at h <;> cases h
      · dsimp only at hnil
        rw [hnil] at hr
        exact hr rfl

/-- Helper: the fuelled advance loop keeps the invariant. -/
theorem statusInv_advanceLoop (fuel : Nat) (inst : Instance)
    (hinv : statusInv inst) : statusInv (advanceLoop fuel inst) := by
  induction fuel generalizing inst with
  | zero => exact hinv
  | succ n ih =>
    unfold advanceLoop
    by_cases hrun : inst.status = .running
    · rw [if_pos hrun]
      split
      · exact hinv
      · next sid hfw =>
        split
        · next s hgs => exact ih _ (statusInv_processStep inst sid s hrun hinv)
        · next hgs => exact ih _ (statusInv_markFailed inst _)
    · rw [if_neg hrun]
      exact hinv

/-- Helper: a freshly started instance satisfies the invariant. -/
theorem statusInv_startInstance (d : ProcessDefinition)
    (initialVariables : VarContext) (fuel : Nat) :
    statusInv (startInstance d initialVariables fuel) := by
  unfold startInstance
  apply statusInv_advanceLoop
  refine statusInv_of_eq _
    { defn := d, status := .running, currentSteps := [d.startStep],
      vars := initialVariables, tasks := [], nextTaskId := 0, failure := none }
    (enterStep_status _ _) (enterStep_currentSteps _ _) ?_
  refine ⟨fun h => ?_, fun _ => by simp⟩
  rcases h with h | h <;> cases h

/-- Helper: a successful claim changes neither status nor the
current-step-set. -/
theorem claimTask_ok_projections (inst : Instance) (tid : Nat) (u : String)
    (i : Instance) (h : claimTask inst tid u = .ok i) :
    i.status = inst.status ∧ i.currentSteps = inst.currentSteps := by
  unfold claimTask at h
  split at h
  · cases h
  · split at h
    · cases h
      exact ⟨rfl, rfl⟩
    · split at h
      · cases h
        exact ⟨rfl, rfl⟩
      · cases h
    · cases h

/-- Helper: a successful task completion keeps the invariant. -/
theorem completeTask_ok_statusInv (inst : Instance) (tid : Nat) (u : String)
    (out : VarContext) (fuel : Nat) (i : Instance)
    (h : completeTask inst tid u out fuel = .ok i) (hinv : statusInv inst) :
    statusInv i := by
  simp only [completeTask] at h
  split at h
  case isTrue hrun =>
    split at h
    · cases h
    · split at h
      · split at h
        case isTrue hass =>
          split at h
          case isTrue hcont =>
            split at h
            · cases h
              apply statusInv_advanceLoop
              apply statusInv_routeStep
              · simpa [updateTask] using hrun
              · apply statusInv_of_eq _ inst _ _ hinv <;> simp [updateTask]
            · cases h
              exact statusInv_markFailed _ _
          case isFalse hcont =>
            cases h
            apply statusInv_of_eq _ inst _ _ hinv <;> simp [updateTask]
        case isFalse hass => cases h
      · cases h
  case isFalse => cases h

/-- Helper: cancellation keeps the invariant. -/
theorem cancelInstance_ok_statusInv (inst : Instance) (i : Instance)
    (h : cancelInstance inst = .ok i) (hinv : statusInv inst) :
    statusInv i := by
  unfold cancelInstance at h
  split at h
  · cases h
    exact ⟨fun _ => rfl, fun hr => by cases hr⟩
  · cases h
    exact hinv

/-- Helper: every serialized engine operation keeps the invariant. -/
theorem statusInv_applyOp (inst : Instance) (op : EngineOp)
    (hinv : statusInv inst) : statusInv (applyOp inst op) := by
  cases op with
  | opClaim tid u =>
    simp only [applyOp]
    split
    · next i hc =>
      obtain ⟨hs, hcs⟩ := claimTask_ok_projections inst tid u i hc
      exact statusInv_of_eq _ _ hs hcs hinv
    · exact hinv
  | opComplete tid u out fuel =>
    simp only [applyOp]
    split
    · next i hc => exact completeTask_ok_statusInv _ _ _ _ _ _ hc hinv
    · exact hinv
  | opCancel =>
    simp only [applyOp]
    split
    · next i hc => exact cancelInstance_ok_statusInv _ _ hc hinv
    · exact hinv
  | opAdvance fuel => exact statusInv_advanceLoop fuel inst hinv

/-- Helper: the invariant survives any operation sequence. -/
theorem statusInv_foldl (ops : List EngineOp) (inst : Instance)
    (hinv : statusInv inst) : statusInv (ops.foldl applyOp inst) := by
  induction ops generalizing inst with
  | nil => exact hinv
  | cons op rest ih => exact ih _ (statusInv_applyOp inst op hinv)

/-- Claim C3: every instance state reachable from `start` by any sequence
of engine operations (claim, completeTask, cancel, advance) satisfies the
§3 invariant — a Completed or Cancelled instance has an empty
current-step-set, and a Running instance has at least one current step. -/
theorem reachable_status_invariant (d : ProcessDefinition)
    (initialVariables : VarContext) (fuel : Nat) (ops : List EngineOp) :
    statusInv (runOps d initialVariables fuel ops) :=
  statusInv_foldl ops _ (statusInv_startInstance d initialVariables fuel)

end Engine

end BPMS
